import Mathlib

/-
Verification of the RegistrationExtractor record-to-table projection and
measurement/control loop, as a shallow embedding of src/writer.py (the Row
Expander, Column Projector and Tabular Sink) and src/tools/agent.py (the
Golden Validator, Corrective Loop Controller and Artifact Publisher).
Definitions translate the source; the theorems settle the specified
claims about them.
-/

/-- Model of a Python/JSON scalar value as it flows through the writer and
the validator: None, booleans, integers and strings.  The claims under
study never depend on nested lists/objects or on float rounding, so the
value domain is restricted to these scalars. -/
inductive Value where
  | null : Value
  | bool (b : Bool) : Value
  | num (n : Int) : Value
  | str (s : String) : Value
deriving DecidableEq, Repr

/-- Python truthiness of a scalar, as used by bool(...) and by conditional
expressions in writer.py. -/
def pyTruthy : Value → Bool
  | .null => false
  | .bool b => b
  | .num n => n != 0
  | .str s => !s.isEmpty

/-- Python str(...) rendering of a scalar, as performed by the f-string in
the name cell of writer.py. -/
def pyFormat : Value → String
  | .null => "None"
  | .bool true => "True"
  | .bool false => "False"
  | .num n => toString n
  | .str s => s

/-- Python == on scalars, including the numeric equality of bool and int. -/
def pyEq : Value → Value → Bool
  | .null, .null => true
  | .bool a, .bool b => a == b
  | .num a, .num b => a == b
  | .bool a, .num b => (if a then (1 : Int) else 0) == b
  | .num a, .bool b => a == (if b then (1 : Int) else 0)
  | .str a, .str b => a == b
  | _, _ => false

/-- Python string + value concatenation: it succeeds only when the right
operand is a string, every other operand raises TypeError (modelled as the
error case). -/
def strAdd (s : String) (v : Value) : Except Unit Value :=
  match v with
  | .str t => .ok (.str (s ++ t))
  | _ => .error ()

/-- Whether a scalar is a Python string. -/
def Value.isStr : Value → Bool
  | .str _ => true
  | _ => false

/-- A Python dict with string keys, modelled as an association list. -/
abbrev PyDict := List (String × Value)

/-- Python dict lookup returning None-as-absent (dict.get with no default). -/
def dictGet (d : PyDict) (k : String) : Option Value :=
  (d.find? (fun kv => kv.1 == k)).map (fun kv => kv.2)

/-- Python dict.get with an explicit default. -/
def dictGetD (d : PyDict) (k : String) (dflt : Value) : Value :=
  (dictGet d k).getD dflt

/-- Python result.get(key): absent keys yield None. -/
def pyGet (d : PyDict) (k : String) : Value :=
  (dictGet d k).getD .null

/-- Python dict item assignment on a rate-valued dict: overwrite in place
when the key exists, append otherwise (insertion order preserved). -/
def dictSetRate (d : List (String × ℚ)) (k : String) (v : ℚ) : List (String × ℚ) :=
  if d.any (fun kv => kv.1 == k) then
    d.map (fun kv => if kv.1 == k then (kv.1, v) else kv)
  else d ++ [(k, v)]

/-- FIXED_HEADERS from src/writer.py lines 59-74, in source order. -/
def FIXED_HEADERS : List String := [
  "ファイル名","種別","事故簿フラグ","事故簿メモ",
  "所在","地番","地目","地積(㎡)原文","地積(㎡)数値","表題部_原因","表題部_原因日(原文)","表題部_原因日(YYYY-MM-DD)",
  "家屋番号","種類","構造","床面積_1階(㎡)","表題部_原因_建物","表題部_原因日_建物(原文/規格化)",
  "現権利者_持分(原文)","現権利者_持分(小数)","現権利者_氏名/名称","現権利者_住所",
  "現権利者_取得原因","現権利者_原因日(原文)","現権利者_原因日(YYYY-MM-DD)",
  "甲区_受付年月日","甲区_受付番号","備考_甲区",
  "乙区_登記の目的","乙区_受付年月日","乙区_受付番号","乙区_権利者","乙区_原因","乙区_原因日(原文/規格化)","備考_乙区",
  "会社法人等番号","商号","本店","公告方法","会社成立年月日","目的(要約)","資本金",
  "発行可能株式総数","発行済株式数","機関（代表者/取締役等）","設置区分","最終登記日","備考_法人"
]

/-- The slice of a result dict read by _result_to_rows: the fields are the
values of result.get for the respective keys, with the default of each get
folded into the field default.  The header and owners entries themselves
remain fully dynamic dicts of scalars. -/
structure CanonicalRecord where
  file_name : Value := .str ""
  type : Value := .str ""
  accident_flag : Value := .bool false
  accident_memo : Value := .str ""
  header : PyDict := []
  owners : List PyDict := []

/-- The type-label dict lookup in writer.py line 123: land, building and
corporate map to their Japanese labels, anything else to the empty string. -/
def typeLabel (t : Value) : Value :=
  if pyEq t (.str "land") then .str "土地"
  else if pyEq t (.str "building") then .str "建物"
  else if pyEq t (.str "corporate") then .str "法人"
  else .str ""

/-- The 18 document-level cells assigned into common on row 0
(writer.py lines 121-131): file name, type label, accident flag/memo,
the land header fields and the building header fields. -/
def commonCells (r : CanonicalRecord) : List Value :=
  [ r.file_name,
    typeLabel r.type,
    .bool (pyTruthy r.accident_flag),
    r.accident_memo,
    dictGetD r.header "所在" (.str ""),
    dictGetD r.header "地番" (.str ""),
    dictGetD r.header "地目" (.str ""),
    dictGetD r.header "地積_原文" (.str ""),
    dictGetD r.header "地積_㎡" (.str ""),
    dictGetD r.header "表題部_原因" (.str ""),
    dictGetD r.header "表題部_原因日_原文" (.str ""),
    dictGetD r.header "表題部_原因日_規格化" (.str ""),
    dictGetD r.header "家屋番号" (.str ""),
    dictGetD r.header "種類" (.str ""),
    dictGetD r.header "構造" (.str ""),
    dictGetD r.header "床面積_1階_㎡" (.str ""),
    dictGetD r.header "表題部_原因_建物" (.str ""),
    dictGetD r.header "表題部_原因日_建物" (.str "") ]

/-- The 17 owner-specific cells of a row (writer.py lines 133-151 and the
row literal lines 167-173).  The name cell concatenates the share text and
the name exactly as the source f-string does; since Python string
concatenation raises TypeError on a non-string right operand, the result
is fallible. -/
def ownerCells (o : PyDict) : Except Unit (List Value) :=
  let share_raw := dictGetD o "share_raw" (.str "")
  let share := dictGetD o "share" (.str "")
  let name := dictGetD o "name" (.str "")
  match strAdd (if pyTruthy share_raw then pyFormat share_raw ++ " " else "") name with
  | .error e => .error e
  | .ok nameCell =>
    .ok [ share_raw, share, nameCell,
      dictGetD o "address" (.str ""),
      dictGetD o "acquire_reason" (.str ""),
      dictGetD o "acquire_day_raw" (.str ""),
      dictGetD o "acquire_day" (.str ""),
      dictGetD o "kou_uketsuke_day" (.str ""),
      dictGetD o "kou_uketsuke_no" (.str ""),
      dictGetD o "kou_biko" (.str ""),
      dictGetD o "et_mokuteki" (.str ""),
      dictGetD o "et_uketsuke_day" (.str ""),
      dictGetD o "et_uketsuke_no" (.str ""),
      dictGetD o "et_kenrisha" (.str ""),
      dictGetD o "et_genin" (.str ""),
      dictGetD o "et_genin_day" (.str ""),
      dictGetD o "et_biko" (.str "") ]

/-- The corporate summary cells as they appear in the row literal
(writer.py lines 174-175).  They are read from the header dict inside the
per-owner loop, so they recur on every row; note that corp_capital
(資本金) is assigned on line 159 but never placed into the row, so only 12
of the 13 corporate header columns receive a value and the values after
目的(要約) sit one column early. -/
def corpCells (header : PyDict) : List Value :=
  [ dictGetD header "会社法人等番号" (.str ""),
    dictGetD header "商号" (.str ""),
    dictGetD header "本店" (.str ""),
    dictGetD header "公告方法" (.str ""),
    dictGetD header "会社成立年月日" (.str ""),
    dictGetD header "目的(要約)" (.str ""),
    dictGetD header "発行可能株式総数" (.str ""),
    dictGetD header "発行済株式数" (.str ""),
    dictGetD header "機関" (.str ""),
    dictGetD header "設置区分" (.str ""),
    dictGetD header "最終登記日" (.str ""),
    dictGetD header "備考_法人" (.str "") ]

/-- The 列数調整 length adjustment of writer.py lines 177-181: pad with
empty strings up to the schema length, or truncate down to it. -/
def adjustRowLength (row : List Value) : List Value :=
  if row.length < FIXED_HEADERS.length then
    row ++ List.replicate (FIXED_HEADERS.length - row.length) (.str "")
  else if FIXED_HEADERS.length < row.length then
    row.take FIXED_HEADERS.length
  else row

/-- One iteration of the owner loop in _result_to_rows: common is a row of
48 empty strings whose first 18 slots are overwritten on owner index 0
only; the row is common sliced to 18 cells, the owner cells, and the
corporate cells, then length-adjusted. -/
def rowForOwner (r : CanonicalRecord) (idx : Nat) (o : PyDict) : Except Unit (List Value) :=
  let common : List Value :=
    if idx = 0 then
      commonCells r ++ List.replicate (FIXED_HEADERS.length - 18) (.str "")
    else
      List.replicate FIXED_HEADERS.length (.str "")
  match ownerCells o with
  | .error e => .error e
  | .ok oc => .ok (adjustRowLength (common.take 18 ++ oc ++ corpCells r.header))

/-- The enumerated owner loop of _result_to_rows, accumulating rows in
order and propagating the first raised error. -/
def rowsFromOwners (r : CanonicalRecord) : Nat → List PyDict → Except Unit (List (List Value))
  | _, [] => .ok []
  | idx, o :: rest =>
    match rowForOwner r idx o with
    | .error e => .error e
    | .ok row =>
      match rowsFromOwners r (idx + 1) rest with
      | .error e => .error e
      | .ok rows => .ok (row :: rows)

/-- _result_to_rows (writer.py lines 85-184): an empty owners list is
replaced by a single empty owner dict, then one row is produced per owner
in order. -/
def resultToRows (r : CanonicalRecord) : Except Unit (List (List Value)) :=
  let owners := if r.owners.isEmpty then [[]] else r.owners
  rowsFromOwners r 0 owners

/-- active_indices of write_results_to_excel line 243: the positions of
the headers the profile keeps, in schema order.  The loaded profile is a
total boolean mapping over the schema, modelled as a function. -/
def activeIndices (profile : String → Bool) : List Nat :=
  ((FIXED_HEADERS.enum).filter (fun p => profile p.2)).map (fun p => p.1)

/-- active_headers of line 244. -/
def activeHeaders (profile : String → Bool) : List String :=
  (activeIndices profile).map (fun i => FIXED_HEADERS.getD i "")

/-- The per-row projection of line 254; the indices always fall inside the
48-cell row, the getD default is never taken. -/
def projectRow (profile : String → Bool) (row : List Value) : List Value :=
  (activeIndices profile).map (fun i => row.getD i (.str ""))

/-- The sheet-empty test of writer.py line 248 (max_row 1, max_column 1
and an empty A1): in the row-list model of a sheet this is emptiness. -/
def sheetIsEmpty (ws : List (List Value)) : Bool := ws.isEmpty

/-- The data rows one write call appends: every result expanded by
_result_to_rows in order, each row filtered by the active indices.  An
exception while expanding aborts the call before the workbook is saved. -/
def dataRowsOf (profile : String → Bool) (results : List CanonicalRecord) :
    Except Unit (List (List Value)) :=
  match results.mapM resultToRows with
  | .error e => .error e
  | .ok rss => .ok ((rss.flatten).map (projectRow profile))

/-- write_results_to_excel (lines 246-257) acting on the named sheet: the
filtered header row is appended only when the sheet is empty, then every
projected data row is appended, and the workbook is saved once at the
end (on an expansion error nothing is persisted). -/
def writeResultsToSheet (profile : String → Bool) (results : List CanonicalRecord)
    (ws : List (List Value)) : Except Unit (List (List Value)) :=
  let ws1 := if sheetIsEmpty ws then ws ++ [(activeHeaders profile).map Value.str] else ws
  match dataRowsOf profile results with
  | .error e => .error e
  | .ok rows => .ok (ws1 ++ rows)

/-- Path(name).stem as used on agent.py line 100: the final path component
with its suffix removed; a dot that is the first or the last character of
the component does not start a suffix. -/
def pathStem (s : String) : String :=
  let name := s.toList.foldl (fun acc c => if c == '/' then [] else acc ++ [c]) []
  match name.reverse.findIdx? (fun c => c == '.') with
  | none => String.mk name
  | some rIdx =>
    let i := name.length - 1 - rIdx
    if 0 < i ∧ i < name.length - 1 then String.mk (name.take i) else String.mk name

/-- The state of the reference corpus for one file stem: no expected file,
an expected file whose json.load raises, or a parsed expected dict. -/
inductive RefEntry where
  | missing : RefEntry
  | unparsable : RefEntry
  | parsed (expected : PyDict) : RefEntry
deriving DecidableEq, Repr

/-- The metrics dict built by compare_with_expected (agent.py 122-127). -/
structure Metrics where
  overall_match_rate : ℚ
  precision : ℚ
  «recall» : ℚ
  detail : List (String × ℚ)
deriving DecidableEq, Repr

/-- The key-matching loop of agent.py lines 112-116: the number of
top-level expected entries whose value equals result.get(key) under
Python ==. -/
def matchCount (result : PyDict) (expected : PyDict) : Nat :=
  (expected.filter (fun kv => pyEq (pyGet result kv.1) kv.2)).length

/-- The result loop of compare_with_expected (agent.py lines 98-120),
carrying the details dict and the running totals.  A record whose
reference is missing, or whose reference file fails to load, is skipped
entirely; a non-string file_name would make Path() raise, modelled as the
error case. -/
def compareAux (ref : String → RefEntry) :
    List PyDict → List (String × ℚ) → Nat → Nat → Except Unit Metrics
  | [], details, total_match, total_fields =>
    let overall : ℚ :=
      if total_fields ≠ 0 then (total_match : ℚ) / (total_fields : ℚ) else 1
    .ok { overall_match_rate := overall, precision := overall, «recall» := overall,
          detail := details }
  | result :: rest, details, total_match, total_fields =>
    match dictGetD result "file_name" (.str "") with
    | .str fname =>
      match ref (pathStem fname) with
      | .missing => compareAux ref rest details total_match total_fields
      | .unparsable => compareAux ref rest details total_match total_fields
      | .parsed expected =>
        let fields := expected.length
        let «matches» := matchCount result expected
        let detail_rate : ℚ := if fields ≠ 0 then («matches» : ℚ) / (fields : ℚ) else 1
        compareAux ref rest (dictSetRate details fname detail_rate)
          (total_match + «matches») (total_fields + fields)
    | _ => .error ()

/-- compare_with_expected (agent.py lines 84-128): totals start at zero,
details start empty, and the reference corpus is looked up by file stem. -/
def compareWithExpected (results : List PyDict) (ref : String → RefEntry) :
    Except Unit Metrics :=
  compareAux ref results [] 0 0

/-- Whether a record has a usable (parsed) reference entry. -/
def isReferenced (ref : String → RefEntry) (result : PyDict) : Bool :=
  match dictGetD result "file_name" (.str "") with
  | .str fname =>
    match ref (pathStem fname) with
    | .parsed _ => true
    | _ => false
  | _ => false

/-- The number of reference keys a record contributes to the denominator:
zero unless its reference parses. -/
def recordFields (ref : String → RefEntry) (result : PyDict) : Nat :=
  match dictGetD result "file_name" (.str "") with
  | .str fname =>
    match ref (pathStem fname) with
    | .parsed expected => expected.length
    | _ => 0
  | _ => 0

/-- The number of matches a record contributes to the numerator: zero
unless its reference parses. -/
def recordMatches (ref : String → RefEntry) (result : PyDict) : Nat :=
  match dictGetD result "file_name" (.str "") with
  | .str fname =>
    match ref (pathStem fname) with
    | .parsed expected => matchCount result expected
    | _ => 0
  | _ => 0

/-- Turn every unparsable reference entry into a missing one. -/
def eraseUnparsable : RefEntry → RefEntry
  | .unparsable => .missing
  | e => e

/-- What the while loop leaves behind: how many times apply_self_healing
was invoked, and the final value of the loops counter. -/
structure LoopOutcome where
  attempts : Nat
  loops : Nat
deriving DecidableEq, Repr

/-- The self-healing while loop of agent.py main: while the match rate is
below the threshold and the counter is below max_loops, invoke the
corrective action; a False report breaks out immediately, a True report
re-runs extraction and validation (the n-th re-run yielding rerunRate n)
and increments the counter.  healResult n is what the n-th invocation of
apply_self_healing returns. -/
def selfHealLoop (threshold : ℚ) (maxLoops : Nat) (healResult : Nat → Bool)
    (rerunRate : Nat → ℚ) (loops : Nat) (rate : ℚ) (attempts : Nat) : LoopOutcome :=
  if h : rate < threshold ∧ loops < maxLoops then
    if healResult attempts then
      selfHealLoop threshold maxLoops healResult rerunRate
        (loops + 1) (rerunRate loops) (attempts + 1)
    else
      { attempts := attempts + 1, loops := loops }
  else
    { attempts := attempts, loops := loops }
termination_by maxLoops - loops
decreasing_by exact Nat.sub_succ_lt_self _ _ h.2

/-- The corrective loop as entered by main: counter and attempts start at
zero, the initial rate comes from the first validation pass. -/
def correctiveLoop (threshold : ℚ) (maxLoops : Nat) (healResult : Nat → Bool)
    (rerunRate : Nat → ℚ) (initialRate : ℚ) : LoopOutcome :=
  selfHealLoop threshold maxLoops healResult rerunRate 0 initialRate 0

/-- The threshold constant of agent.py line 228. -/
def mainThreshold : ℚ := 995 / 1000

/-- The max_loops constant of agent.py line 230. -/
def mainMaxLoops : Nat := 5

def OUTPUT_XLSX : String := "owners.xlsx"

def METRICS_PATH : String := "metrics.json"

def AUDIT_PATH : String := "audit.jsonl"

def DIFF_REPORT_PATH : String := "diff_report.html"

/-- Writing one file into a path-to-contents map of the disk. -/
def fsWrite (fs : String → Option String) (p c : String) : String → Option String :=
  fun q => if q = p then some c else fs q

/-- The existence fallback of agent.py lines 247-253: create an empty
audit log and a placeholder diff report whenever they do not exist. -/
def ensureReportFiles (fs : String → Option String) : String → Option String :=
  let fs1 := if (fs AUDIT_PATH).isSome then fs else fsWrite fs AUDIT_PATH ""
  if (fs1 DIFF_REPORT_PATH).isSome then fs1
  else fsWrite fs1 DIFF_REPORT_PATH "<html><body><p>No diff report generated.</p></body></html>"

/-- copy_to_downloads (agent.py lines 195-213): each existing file of the
list is copied, in order, into the downloads directory. -/
def copyToDownloads (downloads : String) (filepaths : List String)
    (fs : String → Option String) : String → Option String :=
  filepaths.foldl (fun acc p =>
    match acc p with
    | some content => fsWrite acc (downloads ++ p) content
    | none => acc) fs

/-- Steps 4-5 of main after the corrective loop: guarantee the audit log
and the diff report exist, then distribute the artifact set into the
downloads directory. -/
def publishPhase (downloads : String) (fs : String → Option String) :
    String → Option String :=
  copyToDownloads downloads [OUTPUT_XLSX, METRICS_PATH, AUDIT_PATH, DIFF_REPORT_PATH]
    (ensureReportFiles fs)

def w6Rec : CanonicalRecord :=
  { owners := [[("name", .str "山田太郎")], [("name", .str "花子")]] }

def w6Rows : List (List Value) := (resultToRows w6Rec).toOption.getD []

def w6Empty : CanonicalRecord := {}

def w6EmptyRows : List (List Value) := (resultToRows w6Empty).toOption.getD []

def c8BadRecord : CanonicalRecord := { owners := [[("name", .num 5)]] }

def w8Rec : CanonicalRecord :=
  { file_name := .str "a.pdf", type := .str "land",
    header := [("所在", .str "東京都")],
    owners := [[("share_raw", .str "2/3"), ("name", .str "山田太郎")]] }

def w8Rows : List (List Value) := (resultToRows w8Rec).toOption.getD []

def c1CorpRecord : CanonicalRecord :=
  { file_name := .str "corp.pdf", type := .str "corporate",
    header := [("会社法人等番号", .str "0123"), ("商号", .str "株式会社サンプル")],
    owners := [[("name", .str "甲")], [("name", .str "乙")]] }

def c1CorpRows : List (List Value) := (resultToRows c1CorpRecord).toOption.getD []

def wProfileAll : String → Bool := fun _ => true

def w3RecA : CanonicalRecord :=
  { owners := [[("name", .str "A")], [("name", .str "B")], [("name", .str "C")]] }

def w3RecB : CanonicalRecord :=
  { owners := [[("name", .str "D")], [("name", .str "E")]] }

def w3Rows1 : List (List Value) := (dataRowsOf wProfileAll [w3RecA]).toOption.getD []

def w3Rows2 : List (List Value) := (dataRowsOf wProfileAll [w3RecB]).toOption.getD []

def w3Sheet1 : List (List Value) :=
  (writeResultsToSheet wProfileAll [w3RecA] []).toOption.getD []

def w3Sheet2 : List (List Value) :=
  (writeResultsToSheet wProfileAll [w3RecB] w3Sheet1).toOption.getD []

def w5Expected : PyDict := [("k1", .str "v1"), ("k2", .str "v2")]

def w5Result : PyDict :=
  [("file_name", .str "doc1.pdf"), ("k1", .str "v1"), ("k2", .str "x")]

def w5NoRef : PyDict := [("file_name", .str "other.pdf")]

def w5Batch : List PyDict := [w5Result, w5NoRef]

def w5Ref : String → RefEntry := fun s => if s = "doc1" then .parsed w5Expected else .missing

def w5Metrics : Metrics :=
  (compareWithExpected w5Batch w5Ref).toOption.getD
    { overall_match_rate := 0, precision := 0, «recall» := 0, detail := [] }

def wURef : String → RefEntry := fun s => if s = "doc1" then .unparsable else .missing

theorem FIXED_HEADERS_length : FIXED_HEADERS.length = 48 := rfl

theorem commonCells_length (r : CanonicalRecord) : (commonCells r).length = 18 := rfl

theorem corpCells_length (h : PyDict) : (corpCells h).length = 12 := rfl

theorem ownerCells_ok_length (o : PyDict) (oc : List Value)
    (h : ownerCells o = .ok oc) : oc.length = 17 := by
  simp only [ownerCells] at h
  split at h
  · simp at h
  · injection h with h
    subst h
    simp

theorem ownerCells_ok_of_isStr (o : PyDict)
    (h : (dictGetD o "name" (.str "")).isStr = true) :
    ∃ oc, ownerCells o = .ok oc := by
  simp only [ownerCells]
  cases hv : dictGetD o "name" (.str "") with
  | str s => simp [strAdd]
  | null => rw [hv] at h; simp [Value.isStr] at h
  | bool b => rw [hv] at h; simp [Value.isStr] at h
  | num n => rw [hv] at h; simp [Value.isStr] at h

theorem rowForOwner_shape (r : CanonicalRecord) (idx : Nat) (o : PyDict) (row : List Value)
    (h : rowForOwner r idx o = .ok row) :
    ∃ oc, ownerCells o = .ok oc ∧ oc.length = 17 ∧
      row = (if idx = 0 then commonCells r else List.replicate 18 (Value.str ""))
            ++ (oc ++ (corpCells r.header ++ [Value.str ""])) := by
  simp only [rowForOwner] at h
  cases hoc : ownerCells o with
  | error e => rw [hoc] at h; simp at h
  | ok oc =>
    rw [hoc] at h
    have hoclen := ownerCells_ok_length o oc hoc
    refine ⟨oc, rfl, hoclen, ?_⟩
    by_cases hidx : idx = 0 <;> simp only [hidx, if_true, if_false] at h ⊢
    · rw [List.take_left' (commonCells_length r)] at h
      have hlen : (commonCells r ++ oc ++ corpCells r.header).length = 47 := by
        simp [commonCells_length, corpCells_length, hoclen]
      simp only [adjustRowLength] at h
      rw [hlen, FIXED_HEADERS_length] at h
      norm_num at h
      exact h.symm
    · rw [List.take_replicate] at h
      have hmin : (18 : ℕ) ⊓ FIXED_HEADERS.length = 18 := by
        rw [FIXED_HEADERS_length]
        decide
      rw [hmin] at h
      have hlen : (List.replicate 18 (Value.str "") ++ oc ++ corpCells r.header).length = 47 := by
        simp [corpCells_length, hoclen]
      simp only [adjustRowLength] at h
      rw [hlen, FIXED_HEADERS_length] at h
      norm_num at h
      exact h.symm

theorem rowForOwner_length (r : CanonicalRecord) (idx : Nat) (o : PyDict) (row : List Value)
    (h : rowForOwner r idx o = .ok row) : row.length = FIXED_HEADERS.length := by
  obtain ⟨oc, -, hoclen, hrow⟩ := rowForOwner_shape r idx o row h
  subst hrow
  by_cases hidx : idx = 0 <;>
    simp [hidx, commonCells_length, corpCells_length, hoclen, FIXED_HEADERS_length]

theorem rowForOwner_take18 (r : CanonicalRecord) (idx : Nat) (o : PyDict) (row : List Value)
    (h : rowForOwner r idx o = .ok row) (hidx : idx ≠ 0) :
    row.take 18 = List.replicate 18 (Value.str "") := by
  obtain ⟨oc, -, -, hrow⟩ := rowForOwner_shape r idx o row h
  subst hrow
  simp only [hidx, if_false]
  have : (List.replicate 18 (Value.str "")).length = 18 := by simp
  exact List.take_left' this

theorem rowForOwner_drop35 (r : CanonicalRecord) (idx : Nat) (o : PyDict) (row : List Value)
    (h : rowForOwner r idx o = .ok row) :
    row.drop 35 = corpCells r.header ++ [Value.str ""] := by
  obtain ⟨oc, -, hoclen, hrow⟩ := rowForOwner_shape r idx o row h
  subst hrow
  by_cases hidx : idx = 0 <;> simp only [hidx, if_true, if_false]
  · rw [← List.append_assoc]
    have : (commonCells r ++ oc).length = 35 := by
      simp [commonCells_length, hoclen]
    exact List.drop_left' this
  · rw [← List.append_assoc]
    have : (List.replicate 18 (Value.str "") ++ oc).length = 35 := by
      simp [hoclen]
    exact List.drop_left' this

theorem rowsFromOwners_length (r : CanonicalRecord) :
    ∀ (owners : List PyDict) (idx : Nat) (rows : List (List Value)),
      rowsFromOwners r idx owners = .ok rows → rows.length = owners.length := by
  intro owners
  induction owners with
  | nil => intro idx rows h; simp only [rowsFromOwners] at h; injection h with h; subst h; rfl
  | cons o rest ih =>
    intro idx rows h
    simp only [rowsFromOwners] at h
    cases h1 : rowForOwner r idx o with
    | error e => rw [h1] at h; simp at h
    | ok row =>
      rw [h1] at h
      cases h2 : rowsFromOwners r (idx + 1) rest with
      | error e => rw [h2] at h; simp at h
      | ok rows2 =>
        rw [h2] at h
        injection h with h
        subst h
        simp [ih (idx + 1) rows2 h2]

theorem rowsFromOwners_mem (r : CanonicalRecord) :
    ∀ (owners : List PyDict) (idx : Nat) (rows : List (List Value)),
      rowsFromOwners r idx owners = .ok rows →
      ∀ row ∈ rows, ∃ i o, rowForOwner r i o = .ok row := by
  intro owners
  induction owners with
  | nil =>
    intro idx rows h
    simp only [rowsFromOwners] at h
    injection h with h
    subst h
    intro row hrow
    exact absurd hrow (by simp)
  | cons o rest ih =>
    intro idx rows h
    simp only [rowsFromOwners] at h
    cases h1 : rowForOwner r idx o with
    | error e => rw [h1] at h; simp at h
    | ok row0 =>
      rw [h1] at h
      cases h2 : rowsFromOwners r (idx + 1) rest with
      | error e => rw [h2] at h; simp at h
      | ok rows2 =>
        rw [h2] at h
        injection h with h
        subst h
        intro row hrow
        rcases List.mem_cons.mp hrow with heq | hmem
        · exact ⟨idx, o, heq ▸ h1⟩
        · exact ih (idx + 1) rows2 h2 row hmem

theorem rowsFromOwners_getD (r : CanonicalRecord) :
    ∀ (owners : List PyDict) (idx : Nat) (rows : List (List Value)),
      rowsFromOwners r idx owners = .ok rows →
      ∀ i, i < rows.length →
        ∃ o, rowForOwner r (idx + i) o = .ok (rows.getD i []) := by
  intro owners
  induction owners with
  | nil =>
    intro idx rows h
    simp only [rowsFromOwners] at h
    injection h with h
    subst h
    intro i hi
    exact absurd hi (by simp)
  | cons o rest ih =>
    intro idx rows h
    simp only [rowsFromOwners] at h
    cases h1 : rowForOwner r idx o with
    | error e => rw [h1] at h; simp at h
    | ok row0 =>
      rw [h1] at h
      cases h2 : rowsFromOwners r (idx + 1) rest with
      | error e => rw [h2] at h; simp at h
      | ok rows2 =>
        rw [h2] at h
        injection h with h
        subst h
        intro i hi
        cases i with
        | zero => exact ⟨o, by simpa using h1⟩
        | succ j =>
          have hj : j < rows2.length := by simpa using hi
          obtain ⟨o2, ho2⟩ := ih (idx + 1) rows2 h2 j hj
          refine ⟨o2, ?_⟩
          have heq : idx + (j + 1) = idx + 1 + j := by omega
          rw [heq]
          simpa using ho2

theorem rowsFromOwners_ok (r : CanonicalRecord) :
    ∀ (owners : List PyDict) (idx : Nat),
      (∀ o ∈ owners, (dictGetD o "name" (.str "")).isStr = true) →
      ∃ rows, rowsFromOwners r idx owners = .ok rows := by
  intro owners
  induction owners with
  | nil => intro idx _; exact ⟨[], rfl⟩
  | cons o rest ih =>
    intro idx hnames
    obtain ⟨oc, hoc⟩ := ownerCells_ok_of_isStr o (hnames o (by simp))
    obtain ⟨rows2, hrows2⟩ := ih (idx + 1) (fun o2 ho2 => hnames o2 (by simp [ho2]))
    refine ⟨?_, ?_⟩
    · exact adjustRowLength
        ((if idx = 0 then
            commonCells r ++ List.replicate (FIXED_HEADERS.length - 18) (Value.str "")
          else
            List.replicate FIXED_HEADERS.length (Value.str "")).take 18 ++ oc ++ corpCells r.header) :: rows2
    · simp only [rowsFromOwners, rowForOwner, hoc, hrows2]

/-- C6: the Row Expander emits exactly one row per owner, in owner order,
when the owners sequence is non-empty, and exactly one row when it is
empty. -/
theorem c6_row_expander (r : CanonicalRecord) (rows : List (List Value))
    (h : resultToRows r = .ok rows) :
    (r.owners ≠ [] → rows.length = r.owners.length) ∧
    (r.owners = [] → rows.length = 1) := by
  simp only [resultToRows] at h
  cases howners : r.owners with
  | nil =>
    rw [howners] at h
    simp only [List.isEmpty_nil, if_true] at h
    have hlen := rowsFromOwners_length r [[]] 0 rows h
    exact ⟨fun hne => absurd rfl hne, fun _ => by simpa using hlen⟩
  | cons o rest =>
    rw [howners] at h
    simp only [List.isEmpty_cons, if_false] at h
    have hlen := rowsFromOwners_length r (o :: rest) 0 rows h
    exact ⟨fun _ => hlen, fun he => by simp at he⟩

/-- C6 witness: a record with two owners expands to two rows, a record
with no owners expands to one row. -/
theorem c6_row_expander_witness :
    w6Rows.length = w6Rec.owners.length ∧ w6Rec.owners.length = 2 ∧
    w6EmptyRows.length = 1 :=
  ⟨(c6_row_expander w6Rec w6Rows rfl).1 (by decide), rfl,
   (c6_row_expander w6Empty w6EmptyRows rfl).2 rfl⟩

/-- C8 (amended): every row the expansion produces has exactly the length
of the fixed header schema, and the expansion succeeds whenever every
owner dict carries a string (or absent) name value; a non-string name
value makes the name-cell concatenation raise. -/
theorem c8_row_shape (r : CanonicalRecord) :
    (∀ rows, resultToRows r = .ok rows → ∀ row ∈ rows, row.length = FIXED_HEADERS.length) ∧
    ((∀ o ∈ r.owners, (dictGetD o "name" (.str "")).isStr = true) →
      ∃ rows, resultToRows r = .ok rows) := by
  constructor
  · intro rows h row hrow
    simp only [resultToRows] at h
    obtain ⟨i, o, ho⟩ := rowsFromOwners_mem r _ 0 rows h row hrow
    exact rowForOwner_length r i o row ho
  · intro hnames
    simp only [resultToRows]
    cases howners : r.owners with
    | nil =>
      simp only [List.isEmpty_nil, if_true]
      refine rowsFromOwners_ok r [[]] 0 ?_
      intro o ho
      simp only [List.mem_singleton] at ho
      subst ho
      rfl
    | cons o rest =>
      simp only [List.isEmpty_cons, if_false]
      exact rowsFromOwners_ok r (o :: rest) 0 (howners ▸ hnames)

/-- C8 counterexample: an owner dict whose name value is the integer 5
makes the expansion raise TypeError (string + int), so the expansion is
not total over malformed owner dicts. -/
theorem c8_counterexample : resultToRows c8BadRecord = .error () := rfl

/-- C8 witness: a well-formed one-owner land record expands successfully
and each row has the schema length. -/
theorem c8_row_shape_witness :
    (∃ rows, resultToRows w8Rec = .ok rows) ∧
    (∀ row ∈ w8Rows, row.length = FIXED_HEADERS.length) :=
  ⟨(c8_row_shape w8Rec).2 (by decide), (c8_row_shape w8Rec).1 w8Rows rfl⟩

/-- C1 (amended): on every row past index 0 the first 18 cells (file
name, type label, accident flag/memo, land header fields, building header
fields) are the empty string, while the corporate summary cells recur
identically on every row, row 0 included. -/
theorem c1_doc_level_cells (r : CanonicalRecord) (rows : List (List Value))
    (h : resultToRows r = .ok rows) :
    (∀ i, 0 < i → i < rows.length →
      (rows.getD i []).take 18 = List.replicate 18 (Value.str "")) ∧
    (∀ i, i < rows.length →
      (rows.getD i []).drop 35 = corpCells r.header ++ [Value.str ""]) := by
  simp only [resultToRows] at h
  constructor
  · intro i hi0 hi
    obtain ⟨o, ho⟩ := rowsFromOwners_getD r _ 0 rows h i hi
    rw [Nat.zero_add] at ho
    exact rowForOwner_take18 r i o _ ho (by omega)
  · intro i hi
    obtain ⟨o, ho⟩ := rowsFromOwners_getD r _ 0 rows h i hi
    rw [Nat.zero_add] at ho
    exact rowForOwner_drop35 r i o _ ho

/-- C1 counterexample: on a two-owner corporate record the second output
row (row index 1) carries the corporate summary value in the
会社法人等番号 column, not the empty string, refuting the claim that rows
past index 0 are empty in every document-level column. -/
theorem c1_counterexample :
    resultToRows c1CorpRecord = .ok c1CorpRows ∧
    c1CorpRows.length = 2 ∧
    FIXED_HEADERS.getD 35 "" = "会社法人等番号" ∧
    (c1CorpRows.getD 1 []).getD 35 (.str "") = .str "0123" ∧
    Value.str "0123" ≠ Value.str "" :=
  ⟨rfl, rfl, rfl, rfl, by decide⟩

/-- C1 witness: the amended statement evaluated on the two-owner corporate
record. -/
theorem c1_doc_level_cells_witness :
    (c1CorpRows.getD 1 []).take 18 = List.replicate 18 (Value.str "") ∧
    (c1CorpRows.getD 1 []).drop 35 = corpCells c1CorpRecord.header ++ [Value.str ""] :=
  ⟨(c1_doc_level_cells c1CorpRecord c1CorpRows rfl).1 1 (by decide) (by decide),
   (c1_doc_level_cells c1CorpRecord c1CorpRows rfl).2 1 (by decide)⟩

/-- C2 counterexample: the fixed header schema has 48 columns, not 42. -/
theorem c2_counterexample : FIXED_HEADERS.length ≠ 42 := by decide

/-- C2 (amended): the fixed header schema is an ordered sequence of
exactly 48 pairwise-distinct named columns; its order is the canonical
output column order. -/
theorem c2_fixed_header_schema : FIXED_HEADERS.length = 48 ∧ FIXED_HEADERS.Nodup :=
  ⟨rfl, by decide⟩

/-- C3: writing a batch into an empty sheet and then a second batch into
the resulting sheet yields the filtered header row exactly once, followed
by the concatenation of both batches of data rows. -/
theorem c3_tabular_sink (profile : String → Bool) (rs1 rs2 : List CanonicalRecord)
    (r1 r2 ws1 ws2 : List (List Value))
    (h1 : dataRowsOf profile rs1 = .ok r1) (h2 : dataRowsOf profile rs2 = .ok r2)
    (hw1 : writeResultsToSheet profile rs1 [] = .ok ws1)
    (hw2 : writeResultsToSheet profile rs2 ws1 = .ok ws2) :
    ws2 = ((activeHeaders profile).map Value.str) :: (r1 ++ r2) ∧
    ws2.length = 1 + (r1.length + r2.length) := by
  simp only [writeResultsToSheet, sheetIsEmpty, List.isEmpty_nil, if_true, h1] at hw1
  injection hw1 with hw1
  subst hw1
  simp only [writeResultsToSheet, sheetIsEmpty, h2] at hw2
  simp only [List.nil_append, List.isEmpty_cons, if_false] at hw2
  injection hw2 with hw2
  subst hw2
  constructor
  · simp
  · simp [Nat.add_comm, Nat.add_assoc]

/-- C3 witness: a 3-row batch followed by a 2-row batch into the same
sheet yields one header row and five data rows. -/
theorem c3_tabular_sink_witness :
    w3Sheet2 = ((activeHeaders wProfileAll).map Value.str) :: (w3Rows1 ++ w3Rows2) ∧
    w3Rows1.length = 3 ∧ w3Rows2.length = 2 ∧ w3Sheet2.length = 6 :=
  ⟨(c3_tabular_sink wProfileAll [w3RecA] [w3RecB] w3Rows1 w3Rows2 w3Sheet1 w3Sheet2
      rfl rfl rfl rfl).1,
   rfl, rfl, rfl⟩

theorem compareAux_overall (ref : String → RefEntry) :
    ∀ (results : List PyDict) (details : List (String × ℚ)) (tm tf : Nat) (m : Metrics),
      compareAux ref results details tm tf = .ok m →
      m.overall_match_rate =
        (if tf + (results.map (recordFields ref)).sum ≠ 0 then
          ((tm + (results.map (recordMatches ref)).sum : Nat) : ℚ) /
            ((tf + (results.map (recordFields ref)).sum : Nat) : ℚ)
        else 1) := by
  intro results
  induction results with
  | nil =>
    intro details tm tf m h
    simp only [compareAux] at h
    injection h with h
    subst h
    simp
  | cons result rest ih =>
    intro details tm tf m h
    simp only [compareAux] at h
    cases hv : dictGetD result "file_name" (.str "") with
    | str fname =>
      simp only [hv] at h
      cases hr : ref (pathStem fname) with
      | missing =>
        simp only [hr] at h
        have hrec := ih details tm tf m h
        simp only [List.map_cons, List.sum_cons, recordFields, recordMatches, hv, hr]
        simpa using hrec
      | unparsable =>
        simp only [hr] at h
        have hrec := ih details tm tf m h
        simp only [List.map_cons, List.sum_cons, recordFields, recordMatches, hv, hr]
        simpa using hrec
      | parsed expected =>
        simp only [hr] at h
        have hrec := ih _ _ _ m h
        simp only [List.map_cons, List.sum_cons, recordFields, recordMatches, hv, hr]
        rw [hrec]
        simp [Nat.add_assoc]
    | null => simp only [hv] at h; exact Except.noConfusion h
    | bool b => simp only [hv] at h; exact Except.noConfusion h
    | num n => simp only [hv] at h; exact Except.noConfusion h

theorem compareAux_prec_recall (ref : String → RefEntry) :
    ∀ (results : List PyDict) (details : List (String × ℚ)) (tm tf : Nat) (m : Metrics),
      compareAux ref results details tm tf = .ok m →
      m.precision = m.overall_match_rate ∧ m.«recall» = m.overall_match_rate := by
  intro results
  induction results with
  | nil =>
    intro details tm tf m h
    simp only [compareAux] at h
    injection h with h
    subst h
    exact ⟨rfl, rfl⟩
  | cons result rest ih =>
    intro details tm tf m h
    simp only [compareAux] at h
    cases hv : dictGetD result "file_name" (.str "") with
    | str fname =>
      simp only [hv] at h
      cases hr : ref (pathStem fname) with
      | missing => simp only [hr] at h; exact ih _ _ _ m h
      | unparsable => simp only [hr] at h; exact ih _ _ _ m h
      | parsed expected => simp only [hr] at h; exact ih _ _ _ m h
    | null => simp only [hv] at h; exact Except.noConfusion h
    | bool b => simp only [hv] at h; exact Except.noConfusion h
    | num n => simp only [hv] at h; exact Except.noConfusion h

theorem compareAux_erase (ref : String → RefEntry) :
    ∀ (results : List PyDict) (details : List (String × ℚ)) (tm tf : Nat),
      compareAux (fun s => eraseUnparsable (ref s)) results details tm tf =
        compareAux ref results details tm tf := by
  intro results
  induction results with
  | nil => intro details tm tf; rfl
  | cons result rest ih =>
    intro details tm tf
    simp only [compareAux]
    cases hv : dictGetD result "file_name" (.str "") with
    | str fname =>
      simp only [hv]
      cases hr : ref (pathStem fname) with
      | missing => simp only [hr, eraseUnparsable]; exact ih _ _ _
      | unparsable => simp only [hr, eraseUnparsable]; exact ih _ _ _
      | parsed expected => simp only [hr, eraseUnparsable]; exact ih _ _ _
    | null => simp only [hv]
    | bool b => simp only [hv]
    | num n => simp only [hv]

theorem compareAux_total (ref : String → RefEntry) :
    ∀ (results : List PyDict) (details : List (String × ℚ)) (tm tf : Nat),
      (∀ r0 ∈ results, (dictGetD r0 "file_name" (.str "")).isStr = true) →
      ∃ m, compareAux ref results details tm tf = .ok m := by
  intro results
  induction results with
  | nil => intro details tm tf _; exact ⟨_, rfl⟩
  | cons result rest ih =>
    intro details tm tf hall
    have hstr := hall result (by simp)
    simp only [compareAux]
    cases hv : dictGetD result "file_name" (.str "") with
    | str fname =>
      simp only [hv]
      cases hr : ref (pathStem fname) with
      | missing =>
        simp only [hr]
        exact ih details tm tf (fun r0 hr0 => hall r0 (by simp [hr0]))
      | unparsable =>
        simp only [hr]
        exact ih details tm tf (fun r0 hr0 => hall r0 (by simp [hr0]))
      | parsed expected =>
        simp only [hr]
        exact ih _ _ _ (fun r0 hr0 => hall r0 (by simp [hr0]))
    | null => rw [hv] at hstr; simp [Value.isStr] at hstr
    | bool b => rw [hv] at hstr; simp [Value.isStr] at hstr
    | num n => rw [hv] at hstr; simp [Value.isStr] at hstr

theorem not_referenced_zero (ref : String → RefEntry) (result : PyDict)
    (h : isReferenced ref result = false) :
    recordMatches ref result = 0 ∧ recordFields ref result = 0 := by
  unfold isReferenced at h
  unfold recordMatches recordFields
  cases hv : dictGetD result "file_name" (.str "") with
  | str fname =>
    simp only [hv] at h ⊢
    cases hr : ref (pathStem fname) with
    | parsed expected => simp only [hr] at h; exact Bool.noConfusion h
    | missing => simp [hr]
    | unparsable => simp [hr]
  | null => simp [hv]
  | bool b => simp [hv]
  | num n => simp [hv]

/-- C5: records without a usable reference contribute nothing to either
side of the aggregate rate; the aggregate equals the total matches over
the total reference keys of the referenced records, and is 1 when no
record in the batch has a reference. -/
theorem c5_golden_validator (results : List PyDict) (ref : String → RefEntry) (m : Metrics)
    (h : compareWithExpected results ref = .ok m) :
    (∀ result ∈ results, isReferenced ref result = false →
      recordMatches ref result = 0 ∧ recordFields ref result = 0) ∧
    m.overall_match_rate =
      (if (results.map (recordFields ref)).sum ≠ 0 then
        (((results.map (recordMatches ref)).sum : Nat) : ℚ) /
          (((results.map (recordFields ref)).sum : Nat) : ℚ)
      else 1) ∧
    ((∀ result ∈ results, isReferenced ref result = false) → m.overall_match_rate = 1) := by
  have hov := compareAux_overall ref results [] 0 0 m h
  simp only [Nat.zero_add] at hov
  refine ⟨fun result _ hrf => not_referenced_zero ref result hrf, hov, ?_⟩
  intro hall
  have hsum : (results.map (recordFields ref)).sum = 0 := by
    apply List.sum_eq_zero
    intro x hx
    obtain ⟨result, hres, hxeq⟩ := List.mem_map.mp hx
    rw [← hxeq]
    exact (not_referenced_zero ref result (hall result hres)).2
  rw [hov, hsum]
  simp

/-- C5 witness: a two-record batch where only the first record has a
reference with two keys, one of which matches, yields aggregate rate one
half. -/
theorem c5_golden_validator_witness :
    compareWithExpected w5Batch w5Ref = .ok w5Metrics ∧
    w5Metrics.overall_match_rate = 1 / 2 := by
  constructor
  · rfl
  · have h := c5_golden_validator w5Batch w5Ref w5Metrics rfl
    rw [h.2.1]
    rw [show (List.map (recordMatches w5Ref) w5Batch).sum = 1 from rfl]
    rw [show (List.map (recordFields w5Ref) w5Batch).sum = 2 from rfl]
    norm_num

/-- C7: the metrics record built by the validator always has precision and
recall equal to the overall match rate. -/
theorem c7_metrics_equal (results : List PyDict) (ref : String → RefEntry) (m : Metrics)
    (h : compareWithExpected results ref = .ok m) :
    m.precision = m.overall_match_rate ∧ m.«recall» = m.overall_match_rate :=
  compareAux_prec_recall ref results [] 0 0 m h

/-- C7 witness: the three metric fields coincide on the concrete batch. -/
theorem c7_metrics_equal_witness :
    w5Metrics.precision = w5Metrics.overall_match_rate ∧
    w5Metrics.«recall» = w5Metrics.overall_match_rate :=
  c7_metrics_equal w5Batch w5Ref w5Metrics rfl

/-- C10: a reference file that exists but fails to parse is treated
exactly as a missing reference (the whole metrics output, detail mapping
included, is unchanged by replacing unparsable entries with missing
ones), and the comparison returns a metrics value, never an error, for
every batch whose file_name values are strings. -/
theorem c10_unparsable_reference (results : List PyDict) (ref : String → RefEntry) :
    compareWithExpected results (fun s => eraseUnparsable (ref s)) =
      compareWithExpected results ref ∧
    ((∀ result ∈ results, (dictGetD result "file_name" (.str "")).isStr = true) →
      ∃ m, compareWithExpected results ref = .ok m) :=
  ⟨compareAux_erase ref results [] 0 0,
   fun hall => compareAux_total ref results [] 0 0 hall⟩

/-- C10 witness: a corpus whose only entry is unparsable validates the
concrete batch exactly like the all-missing corpus, and returns a metrics
value. -/
theorem c10_unparsable_reference_witness :
    compareWithExpected w5Batch (fun s => eraseUnparsable (wURef s)) =
      compareWithExpected w5Batch wURef ∧
    ∃ m, compareWithExpected w5Batch wURef = .ok m :=
  ⟨(c10_unparsable_reference w5Batch wURef).1,
   (c10_unparsable_reference w5Batch wURef).2 (by decide)⟩

theorem selfHealLoop_exhausts (threshold : ℚ) (maxLoops : Nat) (healResult : Nat → Bool)
    (rerunRate : Nat → ℚ) (hheal : ∀ n, healResult n = true)
    (hrate : ∀ n, rerunRate n < threshold) :
    ∀ (fuel loops : Nat) (rate : ℚ) (attempts : Nat),
      loops + fuel = maxLoops → rate < threshold →
      (selfHealLoop threshold maxLoops healResult rerunRate loops rate attempts).loops =
        maxLoops := by
  intro fuel
  induction fuel with
  | zero =>
    intro loops rate attempts hfuel hrate0
    rw [selfHealLoop, dif_neg]
    · simpa using hfuel
    · intro hc
      exact absurd hc.2 (by omega)
  | succ n ih =>
    intro loops rate attempts hfuel hrate0
    rw [selfHealLoop, dif_pos ⟨hrate0, by omega⟩, hheal attempts]
    simp only [if_true]
    exact ih (loops + 1) (rerunRate loops) (attempts + 1) (by omega) (hrate loops)

theorem fsWrite_self (fs : String → Option String) (p c : String) :
    fsWrite fs p c p = some c := by
  simp [fsWrite]

theorem fsWrite_other (fs : String → Option String) (p c q : String) (h : q ≠ p) :
    fsWrite fs p c q = fs q := by
  simp [fsWrite, h]

theorem copyToDownloads_preserves (downloads : String) :
    ∀ (filepaths : List String) (fs : String → Option String) (q : String),
      (fs q).isSome = true → ((copyToDownloads downloads filepaths fs) q).isSome = true := by
  intro filepaths
  induction filepaths with
  | nil => intro fs q h; exact h
  | cons p rest ih =>
    intro fs q h
    have hgoal : copyToDownloads downloads (p :: rest) fs =
        copyToDownloads downloads rest
          (match fs p with
            | some content => fsWrite fs (downloads ++ p) content
            | none => fs) := rfl
    rw [hgoal]
    apply ih
    cases hfp : fs p with
    | none => exact h
    | some content =>
      show (fsWrite fs (downloads ++ p) content q).isSome = true
      by_cases hq : q = downloads ++ p
      · subst hq; rw [fsWrite_self]; rfl
      · rw [fsWrite_other fs _ _ _ hq]; exact h

theorem ensureReportFiles_exists (fs : String → Option String) :
    ((ensureReportFiles fs) AUDIT_PATH).isSome = true ∧
    ((ensureReportFiles fs) DIFF_REPORT_PATH).isSome = true := by
  have hne : AUDIT_PATH ≠ DIFF_REPORT_PATH := by decide
  simp only [ensureReportFiles]
  by_cases h1 : (fs AUDIT_PATH).isSome = true
  · rw [if_pos h1]
    by_cases h2 : (fs DIFF_REPORT_PATH).isSome = true
    · rw [if_pos h2]
      exact ⟨h1, h2⟩
    · rw [if_neg h2]
      exact ⟨by rw [fsWrite_other fs _ _ _ hne]; exact h1, by rw [fsWrite_self]; rfl⟩
  · rw [if_neg h1]
    have hd : fsWrite fs AUDIT_PATH "" DIFF_REPORT_PATH = fs DIFF_REPORT_PATH :=
      fsWrite_other fs _ _ _ (Ne.symm hne)
    by_cases h2 : (fs DIFF_REPORT_PATH).isSome = true
    · rw [hd, if_pos h2]
      exact ⟨by rw [fsWrite_self]; rfl, h2⟩
    · rw [hd, if_neg h2]
      refine ⟨?_, by rw [fsWrite_self]; rfl⟩
      rw [fsWrite_other _ _ _ _ hne, fsWrite_self]
      rfl

/-- C4: when the first corrective attempt reports no change, the loop
stops after exactly one attempt with the counter still zero, for every
max_loops budget that lets the loop start; when every attempt reports a
change but no re-extraction ever reaches the threshold, the loop runs
exactly max_loops iterations. -/
theorem c4_corrective_loop (threshold : ℚ) (maxLoops : Nat) (healResult : Nat → Bool)
    (rerunRate : Nat → ℚ) (initialRate : ℚ) :
    (healResult 0 = false → initialRate < threshold → 0 < maxLoops →
      correctiveLoop threshold maxLoops healResult rerunRate initialRate =
        { attempts := 1, loops := 0 }) ∧
    ((∀ n, healResult n = true) → (∀ n, rerunRate n < threshold) →
      initialRate < threshold →
      (correctiveLoop threshold maxLoops healResult rerunRate initialRate).loops =
        maxLoops) := by
  constructor
  · intro hheal hinit hmax
    unfold correctiveLoop
    rw [selfHealLoop, dif_pos ⟨hinit, hmax⟩, hheal]
    simp
  · intro hheal hrate hinit
    unfold correctiveLoop
    exact selfHealLoop_exhausts threshold maxLoops healResult rerunRate hheal hrate
      maxLoops 0 initialRate 0 (by omega) hinit

/-- C4 witness: with the threshold and budget constants of agent.py, an
always-no-change collaborator stops the loop after one attempt, and an
always-change collaborator that never improves the rate runs all five
iterations. -/
theorem c4_corrective_loop_witness :
    correctiveLoop mainThreshold mainMaxLoops (fun _ => false) (fun _ => 0) 0 =
      { attempts := 1, loops := 0 } ∧
    (correctiveLoop mainThreshold mainMaxLoops (fun _ => true) (fun _ => 0) 0).loops =
      mainMaxLoops :=
  ⟨(c4_corrective_loop mainThreshold mainMaxLoops (fun _ => false) (fun _ => 0) 0).1 rfl
      (by norm_num [mainThreshold]) (by norm_num [mainMaxLoops]),
   (c4_corrective_loop mainThreshold mainMaxLoops (fun _ => true) (fun _ => 0) 0).2
      (fun n => rfl) (fun n => by norm_num [mainThreshold]) (by norm_num [mainThreshold])⟩

/-- C9: after the publish phase the audit log and the diff report both
exist on disk, whatever the corrective stage left behind. -/
theorem c9_artifact_publisher (downloads : String) (fs : String → Option String) :
    ((publishPhase downloads fs) AUDIT_PATH).isSome = true ∧
    ((publishPhase downloads fs) DIFF_REPORT_PATH).isSome = true := by
  unfold publishPhase
  exact ⟨copyToDownloads_preserves downloads _ _ _ (ensureReportFiles_exists fs).1,
    copyToDownloads_preserves downloads _ _ _ (ensureReportFiles_exists fs).2⟩
